import Mathlib

/-!
Verification of the Concurrent repository (threadpool.cpp and the two
mandelbrot.cpp variants) against its natural-language specification.

The C++ code is shallowly embedded: the task deque becomes a Lean list,
the stop flag a Bool, machine doubles become exact rationals where only
control flow depends on them, and the interleaved execution of workers,
submitters and the destructor becomes a labelled small-step relation
whose rules are read off the worker loop, enqueue and the destructor.
-/

/-- A Job held by the pool, identified by a number; the callable body is
opaque to the pool (threadpool.cpp line 30: a deque of function objects). -/
abbrev Job := Nat

/-- Result of one pass through the worker loop body after the wait:
either the stop signal (the worker returns) or the front job. -/
inductive DequeueResult where
  | stopSignal : DequeueResult
  | job : Job → DequeueResult
deriving DecidableEq

/-- Lines 44 to 48 of threadpool.cpp, the body of the Worker call
operator once cond.wait has returned, so tasks is nonempty or stop is
set: if (pool.stop) return; then task = pool.tasks.front() and
pool.tasks.pop_front(). Calling front or pop_front on an empty deque is
undefined behaviour, modelled as none; the wait predicate makes that
branch unreachable. -/
def dequeueBlocking (tasks : List Job) (stop : Bool) :
    Option (DequeueResult × List Job) :=
  if stop then some (.stopSignal, tasks)
  else
    match tasks with
    | [] => none
    | t :: ts => some (.job t, ts)

/-- The condition-variable calls the pool makes. -/
inductive WakeSignal where
  | notifyOne : WakeSignal
  | notifyAll : WakeSignal
deriving DecidableEq

/-- Lines 68 to 73 of threadpool.cpp: enqueue takes the lock, does
tasks.push_back(f) and cond.notify_one(); the stop flag is neither read
nor written, and there is no failure path (the deque is unbounded). -/
def threadPoolEnqueue (tasks : List Job) (stop : Bool) (f : Job) :
    (List Job × Bool) × WakeSignal :=
  ((tasks ++ [f], stop), .notifyOne)

/-- The pool as built by the constructor. -/
structure PoolCtorResult where
  workers : Nat
  stop : Bool
  tasks : List Job
deriving DecidableEq

/-- The error taxonomy of the specification, for stating what the code
does not raise. -/
inductive ConfigError where
  | invalidConfiguration : ConfigError
deriving DecidableEq

/-- Lines 53 to 57 of threadpool.cpp: ThreadPool(size_t threads) sets
stop(false) and starts one Worker thread per loop iteration. There is no
validation of threads and no failure path; the size_t parameter is a Nat. -/
def threadPoolConstruct (threads : Nat) : Except ConfigError PoolCtorResult :=
  .ok { workers := threads, stop := false, tasks := [] }

/-- The implicit conversion a negative int argument undergoes at the
size_t parameter of the constructor: reduction modulo 2 to the 64. -/
def sizeTOfInt (k : Int) : Nat := (k % (2 ^ 64)).toNat

/-- std thread join: joining a thread that is not joinable (already
joined) raises std system_error; a joined thread stops being joinable. -/
def threadJoin (alreadyJoined : Bool) : Except String Bool :=
  if alreadyJoined then .error "system_error" else .ok true

/-- The destructor loop, lines 62 to 63: join every worker in order,
unconditionally. -/
def joinAll : List Bool → Except String (List Bool)
  | [] => .ok []
  | w :: ws => do
    let w2 ← threadJoin w
    let ws2 ← joinAll ws
    .ok (w2 :: ws2)

/-- The state the destructor manipulates: the stop flag and, per worker
thread, whether it has already been joined. -/
structure DtorState where
  stop : Bool
  joinedFlags : List Bool
deriving DecidableEq

/-- Lines 59 to 64 of threadpool.cpp: the destructor (the shutdown of
the specification) sets stop = true, calls cond.notify_all() and then
joins every worker with no guard on whether a join already happened. -/
def poolShutdown (s : DtorState) : Except String DtorState := do
  let js ← joinAll s.joinedFlags
  .ok { stop := true, joinedFlags := js }

/-- Global state of the running pool for the interleaving semantics:
the task deque, the stop flag, the number of workers still in their
loop, plus two history variables recording every job executed (in
dequeue order) and every job submitted (in submission order). -/
structure PoolSys where
  tasks : List Job
  stop : Bool
  active : Nat
  runLog : List Job
  enqLog : List Job
deriving DecidableEq

/-- Events of the interleaving semantics. -/
inductive PoolEvent where
  | enq : Job → PoolEvent
  | runJob : Job → PoolEvent
  | setStop : PoolEvent
  | exitWorker : PoolEvent
deriving DecidableEq

/-- One atomic step of the pool, each rule read off threadpool.cpp.
enq is the whole enqueue critical section (lines 70 to 72). runJob is
one worker iteration that passes the stop check with stop still false,
pops the front job under the lock and then runs it (lines 44 to 49; the
body touches no pool state, so it is folded into the step). setStop is
the first statement of the destructor (line 61). exitWorker is a worker
that wakes, sees stop true and returns (line 45), whatever the queue
holds. -/
inductive PoolStep : PoolSys → PoolEvent → PoolSys → Prop where
  | enq (s : PoolSys) (j : Job) :
      PoolStep s (.enq j)
        { s with tasks := s.tasks ++ [j], enqLog := s.enqLog ++ [j] }
  | runJob (s : PoolSys) (j : Job) (ts : List Job)
      (hstop : s.stop = false) (hq : s.tasks = j :: ts) (hact : 0 < s.active) :
      PoolStep s (.runJob j)
        { s with tasks := ts, runLog := s.runLog ++ [j] }
  | setStop (s : PoolSys) :
      PoolStep s .setStop { s with stop := true }
  | exitWorker (s : PoolSys) (hstop : s.stop = true) (hact : 0 < s.active) :
      PoolStep s .exitWorker { s with active := s.active - 1 }

/-- A finite execution: a list of events joining two states. -/
inductive PoolTrace : PoolSys → List PoolEvent → PoolSys → Prop where
  | nil (s : PoolSys) : PoolTrace s [] s
  | cons {s s2 s3 : PoolSys} {e : PoolEvent} {es : List PoolEvent} :
      PoolStep s e s2 → PoolTrace s2 es s3 → PoolTrace s (e :: es) s3

/-- The state right after the constructor returns with n workers. -/
def initPool (n : Nat) : PoolSys :=
  { tasks := [], stop := false, active := n, runLog := [], enqLog := [] }

/-- The destructor has returned: stop was set and every worker thread
has exited and been joined. -/
def shutdownComplete (s : PoolSys) : Prop := s.stop = true ∧ s.active = 0

/-- The primitive actions of the two critical sections, for tracking the
queue mutex. -/
inductive LockAction where
  | lockAcquire : LockAction
  | condWaitReturn : LockAction
  | readFront : LockAction
  | popFront : LockAction
  | lockRelease : LockAction
  | execTask : LockAction
  | pushBack : LockAction
  | notifyOne : LockAction
deriving DecidableEq

/-- One worker loop iteration on the take-a-job path, lines 43 to 49 of
threadpool.cpp in source order: build the unique_lock, return from
cond.wait holding the lock, read tasks.front(), pop_front(), explicit
locker.unlock(), then run the task. -/
def workerIterActions : List LockAction :=
  [.lockAcquire, .condWaitReturn, .readFront, .popFront, .lockRelease, .execTask]

/-- The worker loop on the stop path, lines 43 to 45: wait returns with
stop true and the function returns, the unique_lock releasing in its
destructor. -/
def workerExitActions : List LockAction :=
  [.lockAcquire, .condWaitReturn, .lockRelease]

/-- The enqueue body, lines 70 to 72: the unique_lock is taken, the job
pushed, notify_one called, and the lock releases at scope end. -/
def enqueueActions : List LockAction :=
  [.lockAcquire, .pushBack, .notifyOne, .lockRelease]

/-- Lock state after one action, given the state before it. -/
def lockAfter (held : Bool) : LockAction → Bool
  | .lockAcquire => true
  | .lockRelease => false
  | _ => held

/-- Lock state after running a whole action list. -/
def lockStateAfter (held : Bool) : List LockAction → Bool
  | [] => held
  | a :: as => lockStateAfter (lockAfter held a) as

/-- The actions of a list that run while the mutex is held, given the
lock state at the start. -/
def heldActions (held : Bool) : List LockAction → List LockAction
  | [] => []
  | a :: as => (if held then [a] else []) ++ heldActions (lockAfter held a) as

/-- Lines 63 to 78 of mandelbrot.cpp (identical in both variants): the
escape-time loop. Doubles are modelled as exact rationals; the recursion
mirrors the while loop and decreases on max_iterations - i. After the
loop, i at or above max_iterations yields -1, otherwise i. -/
def findMandelBrotGo (cr ci zr zi : Rat) (i max_iterations : Int) : Int :=
  if h : i < max_iterations ∧ zr * zr + zi * zi < 4 then
    findMandelBrotGo cr ci (zr * zr - zi * zi + cr) (2 * zr * zi + ci)
      (i + 1) max_iterations
  else if max_iterations ≤ i then -1 else i
termination_by (max_iterations - i).toNat
decreasing_by
  omega

/-- findMandelBrot(cr, ci, max_iterations): starts at i = 0, z = 0. -/
def findMandelBrot (cr ci : Rat) (max_iterations : Int) : Int :=
  findMandelBrotGo cr ci 0 0 0 max_iterations

/-- Lines 97 to 131 of mandelbrot.cpp: getColor(n). The returned triple
is (colors[0], colors[1], colors[2]), kept as C ints. The inner chain on
n < 16 and so on is only reached when n is neither -1 nor 0. -/
def getColor (n : Int) : Int × Int × Int :=
  if n = -1 then (0, 0, 0)
  else if n = 0 then (255, 0, 0)
  else if n < 16 then (16 * (16 - n), 0, 16 * n - 1)
  else if n < 32 then (0, 16 * (n - 16), 16 * (32 - n) - 1)
  else if n < 64 then (8 * (n - 32), 8 * (64 - n) - 1, 0)
  else (255 - (n - 64) * 4, 0, 0)

/-- Constants of main in the threaded mandelbrot variant, lines 172 to
174: width 1600, threads 4. -/
def mandelImageWidth : Int := 1600

/-- The thread count of the threaded mandelbrot main. -/
def mandelThreadCount : Int := 4

/-- Line 183: int part = width / threads. -/
def mandelPart : Int := mandelImageWidth / mandelThreadCount

/-- Line 184: int minX = part * i. -/
def threadMinX (i : Int) : Int := mandelPart * i

/-- Line 185: int maxX = part * (i + 1). -/
def threadMaxX (i : Int) : Int := mandelPart * (i + 1)

/-- Thread i writes exactly the pixel columns j with minX <= j < maxX,
the bounds of the inner loop at line 146 of the threaded variant. -/
def threadOwnsColumn (i x : Int) : Prop := threadMinX i ≤ x ∧ x < threadMaxX i

lemma poolStep_log {s s2 : PoolSys} {e : PoolEvent} (h : PoolStep s e s2)
    (hinv : s.enqLog = s.runLog ++ s.tasks) :
    s2.enqLog = s2.runLog ++ s2.tasks := by
  cases h with
  | enq j => simp [hinv, List.append_assoc]
  | runJob j ts hstop hq hact =>
      show s.enqLog = s.runLog ++ [j] ++ ts
      rw [hinv, hq]
      simp
  | setStop => exact hinv
  | exitWorker hstop hact => exact hinv

lemma poolTrace_log {s s2 : PoolSys} {es : List PoolEvent}
    (h : PoolTrace s es s2) (hinv : s.enqLog = s.runLog ++ s.tasks) :
    s2.enqLog = s2.runLog ++ s2.tasks := by
  induction h with
  | nil s => exact hinv
  | cons hstep _ ih => exact ih (poolStep_log hstep hinv)

lemma poolTrace_log_init {n : Nat} {es : List PoolEvent} {s : PoolSys}
    (h : PoolTrace (initPool n) es s) : s.enqLog = s.runLog ++ s.tasks :=
  poolTrace_log h rfl

lemma heldActions_append (held : Bool) (l1 l2 : List LockAction) :
    heldActions held (l1 ++ l2)
      = heldActions held l1 ++ heldActions (lockStateAfter held l1) l2 := by
  induction l1 generalizing held with
  | nil => simp [heldActions, lockStateAfter]
  | cons a as ih =>
      simp [heldActions, lockStateAfter, ih, List.append_assoc]

lemma joinAll_replicate_false (n : Nat) :
    joinAll (List.replicate n false) = .ok (List.replicate n true) := by
  induction n with
  | zero => rfl
  | succ k ih =>
      simp only [List.replicate_succ, joinAll, threadJoin, ih]
      rfl

lemma findMandelBrotGo_range (fuel : Nat) :
    ∀ (cr ci zr zi : Rat) (i m : Int), (m - i).toNat ≤ fuel → 0 ≤ i →
      (findMandelBrotGo cr ci zr zi i m = -1 ∨
        (i ≤ findMandelBrotGo cr ci zr zi i m ∧
          findMandelBrotGo cr ci zr zi i m < m)) := by
  induction fuel with
  | zero =>
      intro cr ci zr zi i m hf hi
      unfold findMandelBrotGo
      split
      · next h => omega
      · split
        · left; rfl
        · next h2 => right; exact ⟨le_refl i, by omega⟩
  | succ k ih =>
      intro cr ci zr zi i m hf hi
      unfold findMandelBrotGo
      split
      · next h =>
          have h1 := h.1
          rcases ih cr ci (zr * zr - zi * zi + cr) (2 * zr * zi + ci) (i + 1) m
              (by omega) (by omega) with h2 | h2
          · left; exact h2
          · right
            rcases h2 with ⟨ha, hb⟩
            exact ⟨by omega, hb⟩
      · split
        · left; rfl
        · next h2 => right; exact ⟨le_refl i, by omega⟩

/-- Claim C1, counterexample: with the stop flag set and the non-empty
queue [0], the worker loop body returns the stop signal and leaves the
queue untouched instead of removing and returning the front Job, so the
stop signal is not reserved for the stop-and-empty case and a job queued
when Stopping begins can fail to be dequeued. -/
theorem dequeueBlocking_drain_counterexample :
    dequeueBlocking [0] true = some (DequeueResult.stopSignal, [0]) ∧
    DequeueResult.stopSignal ≠ DequeueResult.job 0 :=
  ⟨rfl, by decide⟩

/-- Claim C1 (amended): on wake the stop check comes first. Whenever the
stop flag is true the worker returns the stop signal, even if the queue
is non-empty, abandoning the queued jobs; the front Job is removed and
returned exactly when stop is false and the queue is non-empty; the
undefined empty-pop is confined to stop false with an empty queue, a
case the wait predicate excludes. -/
theorem dequeueBlocking_stop_first (tasks : List Job) (stop : Bool) :
    (stop = true → dequeueBlocking tasks stop = some (.stopSignal, tasks)) ∧
    (stop = false → ∀ t ts, tasks = t :: ts →
      dequeueBlocking tasks stop = some (.job t, ts)) ∧
    (dequeueBlocking tasks stop = none ↔ (stop = false ∧ tasks = [])) := by
  refine ⟨?_, ?_, ?_⟩
  · intro h
    simp [dequeueBlocking, h]
  · intro h t ts ht
    simp [dequeueBlocking, h, ht]
  · cases stop <;> cases tasks <;> simp [dequeueBlocking]

/-- Witness for the amended C1 at a concrete state. -/
theorem dequeueBlocking_stop_first_witness :
    dequeueBlocking [7] true = some (DequeueResult.stopSignal, [7]) :=
  (dequeueBlocking_stop_first [7] true).1 rfl

/-- Claim C2, counterexample: with one worker, submit job 0 and then let
the destructor run before the worker ever dequeues: stop is set, the
worker wakes, sees stop and exits, and the join completes shutdown. The
final state is shutdown-complete, its run log counts zero executions of
job 0, yet its submission log counts one. -/
theorem exactly_once_counterexample :
    PoolTrace (initPool 1)
      [PoolEvent.enq 0, PoolEvent.setStop, PoolEvent.exitWorker]
      { tasks := [0], stop := true, active := 0, runLog := [], enqLog := [0] } ∧
    shutdownComplete
      { tasks := [0], stop := true, active := 0, runLog := [], enqLog := [0] } ∧
    ({ tasks := [0], stop := true, active := 0, runLog := [],
        enqLog := [0] } : PoolSys).runLog.count 0 = 0 ∧
    ({ tasks := [0], stop := true, active := 0, runLog := [],
        enqLog := [0] } : PoolSys).enqLog.count 0 = 1 := by
  refine ⟨?_, ⟨rfl, rfl⟩, rfl, rfl⟩
  exact PoolTrace.cons (PoolStep.enq _ 0)
    (PoolTrace.cons (PoolStep.setStop _)
      (PoolTrace.cons (PoolStep.exitWorker _ rfl (by decide)) (PoolTrace.nil _)))

/-- Claim C2 (amended): conservation instead of exactly-once. In every
reachable state, for every job id, executions plus still-queued
occurrences equal submissions, so no job runs more often than it was
submitted (never twice for a job submitted once); but a job still queued
when its worker observes stop is dropped, so exactly-once before
shutdown returns does not hold. -/
theorem job_conservation (n : Nat) (es : List PoolEvent) (s : PoolSys)
    (j : Job) (h : PoolTrace (initPool n) es s) :
    s.runLog.count j + s.tasks.count j = s.enqLog.count j ∧
    s.runLog.count j ≤ s.enqLog.count j := by
  have hlog := poolTrace_log_init h
  refine ⟨?_, ?_⟩
  · rw [hlog, List.count_append]
  · rw [hlog, List.count_append]
    omega

/-- Witness for the amended C2 on a concrete two-event trace. -/
theorem job_conservation_witness :
    ∃ s : PoolSys,
      PoolTrace (initPool 1) [PoolEvent.enq 5, PoolEvent.runJob 5] s ∧
      s.runLog.count 5 + s.tasks.count 5 = s.enqLog.count 5 :=
  ⟨_, PoolTrace.cons (PoolStep.enq (initPool 1) 5)
      (PoolTrace.cons (PoolStep.runJob _ 5 [] rfl rfl (by decide))
        (PoolTrace.nil _)),
    (job_conservation 1 _ _ 5 (PoolTrace.cons (PoolStep.enq (initPool 1) 5)
      (PoolTrace.cons (PoolStep.runJob _ 5 [] rfl rfl (by decide))
        (PoolTrace.nil _)))).1⟩

/-- Claim C3, counterexample: workerCount 0 is below 1, yet the
constructor performs no validation: construction succeeds, creating a
pool with zero worker threads and stop false, and raises no
InvalidConfiguration error. -/
theorem construct_validation_counterexample :
    threadPoolConstruct 0 = .ok { workers := 0, stop := false, tasks := [] } ∧
    threadPoolConstruct 0 ≠ .error ConfigError.invalidConfiguration :=
  ⟨rfl, fun h => Except.noConfusion h⟩

/-- Claim C3 (amended): construction never fails and performs no
validation: for every workerCount it succeeds, starts exactly
workerCount worker threads and sets the stop flag to false; workerCount
0 gives a pool with no workers rather than an error, and a negative int
argument is converted by the size_t parameter (reduction modulo 2 to the
64) rather than rejected, -1 becoming 18446744073709551615. -/
theorem threadPoolConstruct_total (n : Nat) :
    threadPoolConstruct n = .ok { workers := n, stop := false, tasks := [] } ∧
    threadPoolConstruct n ≠ .error ConfigError.invalidConfiguration ∧
    sizeTOfInt (-1) = 18446744073709551615 := by
  refine ⟨rfl, fun h => Except.noConfusion h, ?_⟩
  decide

/-- Claim C4: FIFO dequeue order. In every reachable state the
submission log splits as the execution log followed by the still-queued
jobs, so the list of dequeued jobs is an initial segment of the list of
submitted jobs and the i-th dequeue removes the i-th submitted job;
completion order is not constrained by this statement. -/
theorem dequeue_order_fifo (n : Nat) (es : List PoolEvent) (s : PoolSys)
    (h : PoolTrace (initPool n) es s) :
    s.enqLog = s.runLog ++ s.tasks ∧
    s.runLog = s.enqLog.take s.runLog.length ∧
    ∀ (i : Nat) (h1 : i < s.runLog.length) (h2 : i < s.enqLog.length),
      s.runLog.get ⟨i, h1⟩ = s.enqLog.get ⟨i, h2⟩ := by
  have hlog := poolTrace_log_init h
  refine ⟨hlog, ?_, ?_⟩
  · rw [hlog, List.take_left]
  · intro i h1 h2
    simp only [List.get_eq_getElem]
    rw [List.getElem_of_eq hlog h2, List.getElem_append_left h1]

/-- Witness for C4 on a concrete two-event trace. -/
theorem dequeue_order_fifo_witness :
    ∃ s : PoolSys,
      PoolTrace (initPool 2) [PoolEvent.enq 3, PoolEvent.runJob 3] s ∧
      s.enqLog = s.runLog ++ s.tasks :=
  ⟨_, PoolTrace.cons (PoolStep.enq (initPool 2) 3)
      (PoolTrace.cons (PoolStep.runJob _ 3 [] rfl rfl (by decide))
        (PoolTrace.nil _)),
    (dequeue_order_fifo 2 _ _ (PoolTrace.cons (PoolStep.enq (initPool 2) 3)
      (PoolTrace.cons (PoolStep.runJob _ 3 [] rfl rfl (by decide))
        (PoolTrace.nil _)))).1⟩

/-- Claim C5, counterexample: for a one-worker pool the first destructor
run succeeds and joins the worker; running the destructor body a second
time on the resulting state joins an already-joined thread, which raises
system_error instead of returning without error. -/
theorem second_shutdown_counterexample :
    poolShutdown { stop := false, joinedFlags := [false] }
        = .ok { stop := true, joinedFlags := [true] } ∧
    poolShutdown { stop := true, joinedFlags := [true] }
        = .error "system_error" :=
  ⟨rfl, rfl⟩

/-- Claim C5 (amended): the destructor is not idempotent. It has no
guard: a second run again sets stop (a no-op) and unconditionally joins
every worker; with at least one worker already joined it raises
system_error at that join instead of returning without error with the
state unchanged. A first run from a fresh state joins every worker
exactly once and succeeds. -/
theorem poolShutdown_not_idempotent (stop0 : Bool) (rest : List Bool)
    (n : Nat) :
    poolShutdown { stop := stop0, joinedFlags := true :: rest }
        = .error "system_error" ∧
    poolShutdown { stop := false, joinedFlags := List.replicate n false }
        = .ok { stop := true, joinedFlags := List.replicate n true } := by
  constructor
  · rfl
  · unfold poolShutdown
    dsimp only
    rw [joinAll_replicate_false]
    rfl

/-- Claim C6: enqueue always succeeds (a total function with no error
path, the queue unbounded), appends f at the back of the queue, leaves
the stop flag unchanged, and issues exactly one notify_one wake; the
previous queue content stays in place as the front segment. -/
theorem enqueue_appends_back (tasks : List Job) (stop : Bool) (f : Job) :
    (threadPoolEnqueue tasks stop f).1.1 = tasks ++ [f] ∧
    (threadPoolEnqueue tasks stop f).1.2 = stop ∧
    (threadPoolEnqueue tasks stop f).2 = WakeSignal.notifyOne ∧
    (threadPoolEnqueue tasks stop f).1.1.getLast? = some f ∧
    (threadPoolEnqueue tasks stop f).1.1.take tasks.length = tasks := by
  refine ⟨rfl, rfl, rfl, ?_, ?_⟩
  · simp [threadPoolEnqueue]
  · simp [threadPoolEnqueue, List.take_left]

/-- Claim C7: the queue mutex is never held while a job body runs. For a
worker that performs any number of take-a-job iterations followed by the
exit path, no execTask action is among the actions performed while the
lock is held; within one iteration the actions under the lock are
exactly the wait return, the front read, the pop and the release, with
execTask strictly after the release; and the enqueue critical section
holds the lock only for the O(1) push, notify and release. -/
theorem lock_not_held_during_task (n : Nat) :
    LockAction.execTask ∉
      heldActions false
        ((List.replicate n workerIterActions).flatten ++ workerExitActions) ∧
    heldActions false workerIterActions
      = [.condWaitReturn, .readFront, .popFront, .lockRelease] ∧
    heldActions false enqueueActions
      = [.pushBack, .notifyOne, .lockRelease] := by
  refine ⟨?_, rfl, rfl⟩
  induction n with
  | zero => decide
  | succ k ih =>
      have h1 : (List.replicate (k + 1) workerIterActions).flatten
            ++ workerExitActions
          = workerIterActions
            ++ ((List.replicate k workerIterActions).flatten
              ++ workerExitActions) := by
        simp [List.replicate_succ, List.append_assoc]
      rw [h1, heldActions_append]
      have h2 : lockStateAfter false workerIterActions = false := rfl
      rw [h2]
      intro hmem
      rcases List.mem_append.mp hmem with hA | hB
      · exact absurd hA (by decide)
      · exact ih hB

/-- Claim C8: for every cr, ci and every max_iterations at least 0,
findMandelBrot terminates (the embedding is a total function whose
recursion decreases on max_iterations - i, so the loop runs at most
max_iterations times) and returns either -1, when the iteration budget
is exhausted, or an n with 0 <= n < max_iterations, the first iteration
count at which the square modulus reached 4. -/
theorem findMandelBrot_range (cr ci : Rat) (m : Int) (_hm : 0 ≤ m) :
    findMandelBrot cr ci m = -1 ∨
      (0 ≤ findMandelBrot cr ci m ∧ findMandelBrot cr ci m < m) := by
  have h := findMandelBrotGo_range (m - 0).toNat cr ci 0 0 0 m
    (le_refl _) (le_refl 0)
  exact h

/-- Witness for C8: the origin never escapes, so the budget 2 is
exhausted and -1 is returned. -/
theorem findMandelBrot_range_witness :
    findMandelBrot 0 0 2 = -1 ∨
      (0 ≤ findMandelBrot 0 0 2 ∧ findMandelBrot 0 0 2 < 2) :=
  findMandelBrot_range 0 0 2 (by decide)

/-- Claim C9: on every n that findMandelBrot can produce with budget 127
(n = -1 or 0 <= n <= 126) the three components of getColor n lie in 0 to
255 and are fixed points of reduction modulo 256, so storing them in the
unsigned char pixel fields does not wrap; and findMandelBrot with budget
127 indeed only produces such n. -/
theorem getColor_in_byte_range (n : Int)
    (hn : n = -1 ∨ (0 ≤ n ∧ n ≤ 126)) :
    ((0 ≤ (getColor n).1 ∧ (getColor n).1 ≤ 255 ∧
        (getColor n).1 % 256 = (getColor n).1) ∧
      (0 ≤ (getColor n).2.1 ∧ (getColor n).2.1 ≤ 255 ∧
        (getColor n).2.1 % 256 = (getColor n).2.1) ∧
      (0 ≤ (getColor n).2.2 ∧ (getColor n).2.2 ≤ 255 ∧
        (getColor n).2.2 % 256 = (getColor n).2.2)) ∧
    (∀ cr ci : Rat, findMandelBrot cr ci 127 = -1 ∨
      (0 ≤ findMandelBrot cr ci 127 ∧ findMandelBrot cr ci 127 ≤ 126)) := by
  constructor
  · rcases hn with h | h
    · subst h
      decide
    · unfold getColor
      split_ifs <;> dsimp only <;> omega
  · intro cr ci
    unfold findMandelBrot
    have h2 := findMandelBrotGo_range ((127 : Int) - 0).toNat cr ci 0 0 0 127
      (le_refl _) (le_refl 0)
    rcases h2 with h2 | ⟨h3, h4⟩
    · exact Or.inl h2
    · exact Or.inr ⟨h3, by omega⟩

/-- Witness for C9 at n = 5. -/
theorem getColor_in_byte_range_witness :
    (0 ≤ (getColor 5).1 ∧ (getColor 5).1 ≤ 255 ∧
        (getColor 5).1 % 256 = (getColor 5).1) ∧
      (0 ≤ (getColor 5).2.1 ∧ (getColor 5).2.1 ≤ 255 ∧
        (getColor 5).2.1 % 256 = (getColor 5).2.1) ∧
      (0 ≤ (getColor 5).2.2 ∧ (getColor 5).2.2 ≤ 255 ∧
        (getColor 5).2.2 % 256 = (getColor 5).2.2) :=
  (getColor_in_byte_range 5 (Or.inr (by decide))).1

/-- Claim C10: with width 1600 and 4 threads, part is 400 and the column
ranges of the four workers are pairwise disjoint with union exactly the
columns 0 to 1599: every pixel column in bounds is owned by exactly one
thread index in 0 to 3, and every owned column is in bounds, so each
column is computed and written by exactly one thread. -/
theorem columns_partition (x : Int) (hx : 0 ≤ x ∧ x < mandelImageWidth) :
    (∃ i : Int, 0 ≤ i ∧ i < mandelThreadCount ∧ threadOwnsColumn i x) ∧
    (∀ i j : Int, 0 ≤ i → i < mandelThreadCount → 0 ≤ j →
      j < mandelThreadCount → threadOwnsColumn i x → threadOwnsColumn j x →
      i = j) ∧
    (∀ i y : Int, 0 ≤ i → i < mandelThreadCount → threadOwnsColumn i y →
      0 ≤ y ∧ y < mandelImageWidth) := by
  simp only [threadOwnsColumn, threadMinX, threadMaxX, mandelPart,
    mandelImageWidth, mandelThreadCount] at hx ⊢
  refine ⟨⟨x / 400, by omega, by omega, by omega, by omega⟩, ?_, ?_⟩
  · intro i j hi1 hi2 hj1 hj2 hxi hxj
    omega
  · intro i y hi1 hi2 hy
    omega

/-- Witness for C10 at column 777, owned by thread 1. -/
theorem columns_partition_witness :
    ∃ i : Int, 0 ≤ i ∧ i < mandelThreadCount ∧ threadOwnsColumn i 777 :=
  (columns_partition 777 (by decide)).1
